import Mathlib

/-!
Shallow embedding of the fleet-telemetry ingestion server
(`server/src/index.js`): identity resolution, location / J1939-fault
normalization, the in-memory asset store (`latestById`), the fault-merge
algorithm, and the per-message Kafka handler (`eachMessage`).

JavaScript values carried inside decoded JSON payloads are modelled by the
inductive `JVal`.  An absent object property (JS `undefined`) is modelled by
`Option.none` at lookup sites; an explicit JSON `null` is `JVal.null`; both
are "nullish" for the `??` operator and falsy for boolean tests.
JS numbers are modelled as exact rationals (`Rat`); the payload fields the
program inspects numerically are integers, and the one floating-point
computation (m/s → mph) is exact-rational here.
-/

namespace Fleet

/-- JSON/JS value as decoded by `JSON.parse`. -/
inductive JVal where
  | null : JVal
  | bool (b : Bool) : JVal
  | num (q : Rat) : JVal
  | str (s : String) : JVal
  | arr (elems : List JVal) : JVal
  | obj (fields : List (String × JVal)) : JVal

/-- SameValueZero key comparison of a JS `Map`, restricted to the values that
occur as store keys.  Scalars compare by value; composite values (arrays,
objects) compare by reference in JS, and two values reaching the store from
distinct parses are never the same reference, so they are modelled as never
equal. -/
def JVal.keyEq (a b : JVal) : Bool :=
  match a, b with
  | .null, .null => true
  | .bool x, .bool y => x == y
  | .num x, .num y => x == y
  | .str x, .str y => x == y
  | _, _ => false

instance : BEq JVal := ⟨JVal.keyEq⟩

/-- Property access `o?.[k]`: `none` models JS `undefined` (absent key or
non-object receiver). -/
def jsGet (v : JVal) (k : String) : Option JVal :=
  match v with
  | .obj fs => (fs.find? (fun f => f.1 == k)).map (·.2)
  | _ => none

/-- Chained optional access `o?.[k1]?.[k2]`. -/
def jsGet2 (v : JVal) (k1 k2 : String) : Option JVal :=
  (jsGet v k1).bind (fun w => jsGet w k2)

/-- JS `x != null` (loose): false exactly on `undefined` and `null`. -/
def notNullish : Option JVal → Bool
  | none => false
  | some .null => false
  | some _ => true

/-- JS truthiness of a possibly-absent value: `undefined`, `null`, `false`,
`0`, and `""` are falsy.  (`NaN`, also falsy in JS, has no `Rat`
representative; values that would be `NaN` are modelled as `none`.) -/
def jtruthy : Option JVal → Bool
  | none => false
  | some .null => false
  | some (.bool b) => b
  | some (.num q) => !(q == 0)
  | some (.str s) => !(s == "")
  | some (.arr _) => true
  | some (.obj _) => true

/-- JS `a ?? b` on possibly-absent values (nullish coalescing). -/
def jsCoalesce (a b : Option JVal) : Option JVal :=
  match a with
  | none => b
  | some .null => b
  | some v => some v

/-- JS `a || b` on possibly-absent values (truthy-or). -/
def jsOrJ (a b : Option JVal) : Option JVal :=
  if jtruthy a then a else b

/-- JS `a || b` for string-or-null operands (truthy-or; `""` is falsy). -/
def jsOrS (a b : Option String) : Option String :=
  match a with
  | some s => if s == "" then b else some s
  | none => b

/-- JS `Number(x)` on a possibly-absent value; `none` models `NaN`.
String/array/object numeric coercion is not exercised by the embedded
code paths and is modelled as `NaN`. -/
def jsNumber : Option JVal → Option Rat
  | none => none
  | some .null => some 0
  | some (.bool b) => some (if b then 1 else 0)
  | some (.num q) => some q
  | some (.str _) => none
  | some (.arr _) => none
  | some (.obj _) => none

/-- Decimal rendering of a JS number used in template strings: exact for
integers, which are the only numbers the program interpolates
(`SPN ${spnId}`, `FMI ${fmiId}`). -/
def numToStr (q : Rat) : String :=
  if q.den = 1 then toString q.num else toString q

/-- JS template-string coercion of a value. -/
def jsToStr : JVal → String
  | .null => "null"
  | .bool b => if b then "true" else "false"
  | .num q => numToStr q
  | .str s => s
  | .arr _ => ""
  | .obj _ => "[object Object]"

/-- Does `pat` occur as a prefix of the text?  (Kernel-reducible character
scan used to model JS string search.) -/
def pfxMatch : List Char → List Char → Bool
  | [], _ => true
  | _ :: _, [] => false
  | a :: as, b :: bs => a == b && pfxMatch as bs

/-- Does `pat` occur as a contiguous run inside the text? -/
def subMatch (pat : List Char) : List Char → Bool
  | [] => pfxMatch pat []
  | c :: t => pfxMatch pat (c :: t) || subMatch pat t

/-- Case-sensitive substring test, `s.includes(pat)`. -/
def strIncludes (s pat : String) : Bool :=
  subMatch pat.data s.data

/-- JS `toLowerCase()` (character-wise lowering; the strings involved are
ASCII). -/
def lowerStr (s : String) : String :=
  ⟨s.data.map Char.toLower⟩

/-- Whitespace for `trim()` (the generated descriptions only contain plain
spaces). -/
def wspChar (c : Char) : Bool :=
  c == ' ' || c == '\t' || c == '\n' || c == '\r'

/-- JS `trim()`: strip whitespace from both ends. -/
def trimStr (s : String) : String :=
  ⟨((s.data.dropWhile wspChar).reverse.dropWhile wspChar).reverse⟩

/-- Truthiness of a string-or-null value. -/
def jtruthyS : Option String → Bool
  | some s => s != ""
  | none => false

/-! ### Data model -/

/-- Severity counters computed by `handleFaultMerge`. -/
structure Counts where
  critical : Nat
  warning : Nat
  info : Nat
  unknown : Nat
deriving DecidableEq

/-- Raw J1939 fields preserved on a normalized fault (`meta` in
`normalizeJ1939FaultItem`); each field holds the raw payload value. -/
structure FaultMeta where
  spn : Option JVal
  fmi : Option JVal
  spnDescription : Option JVal
  fmiDescription : Option JVal
  milStatus : Option JVal
  occurrenceCount : Option JVal
  sourceAddressName : Option JVal
  txId : Option JVal

/-- Canonical fault record.  Faults built by `normalizeJ1939FaultItem` carry
string `id`/`code`/`description`/`time` and `meta`; faults injected through
debug routes have the same field types and `meta` absent. -/
structure Fault where
  id : String
  code : String
  description : String
  severity : String
  active : Bool
  time : String
  meta : Option FaultMeta

/-- Per-asset fault container.  `counts` is `none` until the first merge,
modelling the initial empty `counts: {}` object. -/
structure FaultsState where
  active : List Fault
  history : List Fault
  counts : Option Counts

/-- Asset snapshot stored in `latestById`.  `milOn` is `none` until
`handleFaultMerge` first sets it (in JS the property is absent until
assigned). -/
structure Asset where
  id : JVal
  vin : Option JVal
  serial : Option JVal
  time : Option JVal
  lat : Option JVal
  lon : Option JVal
  heading : Option JVal
  city : Option JVal
  state : Option JVal
  mph : Option Rat
  faults : FaultsState
  lastTopic : String
  lastUpdateTs : Nat
  milOn : Option Bool

/-- Canonical location record produced by `normalizeLocation` (also the
record shape passed to `upsertAssetBase` by the fault path, with only the
identity fields set). -/
structure LocRecord where
  id : Option JVal
  vin : Option JVal
  serial : Option JVal
  time : Option JVal
  lat : Option JVal
  lon : Option JVal
  heading : Option JVal
  city : Option JVal
  state : Option JVal
  mph : Option Rat

/-- Identity triple returned by `extractIdentity` / `resolveIdentityFromObj`.
JS `null` results are collapsed to `none` (observably identical here). -/
structure Identity where
  id : Option JVal
  vin : Option JVal
  serial : Option JVal

/-- Insertion-ordered map, modelling a JS `Map` (`latestById`):
`set` replaces the value at the first matching key or appends. -/
def mapGet (m : List (JVal × Asset)) (k : JVal) : Option Asset :=
  (m.find? (fun e => e.1 == k)).map (·.2)

def mapSet (m : List (JVal × Asset)) (k : JVal) (v : Asset) : List (JVal × Asset) :=
  match m with
  | [] => [(k, v)]
  | e :: rest => if e.1 == k then (e.1, v) :: rest else e :: mapSet rest k v

/-- The `partitionLastId` map (partition number to last location id). -/
def plGet (m : List (Nat × JVal)) (p : Nat) : Option JVal :=
  (m.find? (fun e => e.1 == p)).map (·.2)

def plSet (m : List (Nat × JVal)) (p : Nat) (v : JVal) : List (Nat × JVal) :=
  match m with
  | [] => [(p, v)]
  | e :: rest => if e.1 == p then (e.1, v) :: rest else e :: plSet rest p v

/-- Mutable server state: `latestById` and `partitionLastId`. -/
structure ServerState where
  latestById : List (JVal × Asset)
  partitionLastId : List (Nat × JVal)

/-- Raw SPN/FMI projection sent to the client in the `faultcodes` event. -/
structure RawUi where
  spnId : Option JVal
  fmiId : Option JVal
  spnDescription : Option JVal
  fmiDescription : Option JVal
  milStatus : Option JVal
  occurrenceCount : Option JVal
  sourceAddressName : Option JVal
  txId : Option JVal

/-- Outbound socket emissions of the message handler. -/
inductive Event where
  | fault (f : Fault) (id : JVal) (vin serial : Option JVal) : Event
  | faultcodes (id : JVal) (vin : Option JVal) (codes : List RawUi) : Event
  | update (a : Asset) : Event

/-! ### Identity helpers (`index.js` 59-89) -/

def extractIdentity (obj : JVal) : Identity :=
  match obj with
  | .obj _ | .arr _ =>
    { id := jsCoalesce (jsGet2 obj "asset" "id")
              (jsCoalesce (jsGet2 obj "vehicle" "id") none)
      vin := jsOrJ ((jsGet2 obj "asset" "externalIds").bind (fun e => jsGet e "samsara.vin"))
              ((jsGet2 obj "vehicle" "externalIds").bind (fun e => jsGet e "samsara.vin"))
      serial := jsOrJ ((jsGet2 obj "asset" "externalIds").bind (fun e => jsGet e "samsara.serial"))
              ((jsGet2 obj "vehicle" "externalIds").bind (fun e => jsGet e "samsara.serial")) }
  | _ => { id := none, vin := none, serial := none }

def resolveIdentityFromObj (obj : JVal) : Identity :=
  match obj with
  | .obj _ | .arr _ =>
    let env := extractIdentity obj
    { id := jsCoalesce env.id (jsCoalesce (jsGet obj "id")
        (jsCoalesce (jsGet obj "vehicleId") (jsCoalesce (jsGet obj "assetId") none)))
      vin := jsCoalesce env.vin (jsCoalesce (jsGet obj "vin")
        (jsCoalesce (jsGet obj "VIN") (jsCoalesce (jsGet2 obj "vehicle" "vin")
          (jsCoalesce (jsGet2 obj "asset" "vin") none))))
      serial := jsCoalesce env.serial (jsCoalesce (jsGet obj "serial")
        (jsCoalesce (jsGet2 obj "vehicle" "serial")
          (jsCoalesce (jsGet2 obj "asset" "serial") none))) }
  | _ => { id := none, vin := none, serial := none }

/-! ### Location normalization (`index.js` 92-116) -/

def normalizeLocation (obj : JVal) (fallbackIso : String) : LocRecord :=
  let idn := extractIdentity obj
  let mph0 : Option Rat := none
  let mph1 : Option Rat :=
    if notNullish (jsGet2 obj "ecuSpeedMph" "value")
    then jsNumber (jsGet2 obj "ecuSpeedMph" "value") else mph0
  let mph2 : Option Rat :=
    if notNullish (jsGet2 obj "speed" "ecuSpeedMetersPerSecond")
    then (jsNumber (jsGet2 obj "speed" "ecuSpeedMetersPerSecond")).map
           (fun q => q * ((22369362920544 : Rat) / 10000000000000))
    else mph1
  let loc := jsOrJ (jsGet obj "location") (some (.obj []))
  let addr := jsOrJ (loc.bind (fun l => jsGet l "address")) (some (.obj []))
  { id := idn.id
    vin := idn.vin
    serial := idn.serial
    time := jsOrJ (jsGet obj "happenedAtTime") (jsOrJ (jsGet2 obj "ecuSpeedMph" "time")
              (jsOrJ (jsGet obj "time") (some (.str fallbackIso))))
    lat := loc.bind (fun l => jsGet l "latitude")
    lon := loc.bind (fun l => jsGet l "longitude")
    heading := loc.bind (fun l => jsGet l "headingDegrees")
    city := addr.bind (fun a => jsGet a "city")
    state := addr.bind (fun a => jsGet a "state")
    -- `Number.isFinite(mph) ? mph : undefined`: non-numbers are already
    -- `none` here, every `Rat` is finite.
    mph := mph2 }

/-! ### Fault normalization (`index.js` 119-201) -/

/-- Ternary template part, JS `x != null ? "PRE " + x : null`. -/
def tmplPart (pre : String) (v : Option JVal) : Option String :=
  match v with
  | some .null => none
  | none => none
  | some w => some (pre ++ jsToStr w)

/-- The `misfire` test of `normalizeJ1939FaultItem`:
`/misfire/i.test(item?.spnDescription || "") || [1322, 1327, 1328].includes(Number(spnId))`.
The case-insensitive regex over the all-lowercase literal pattern is the
lower-cased substring test. -/
def misfireOf (item : JVal) : Bool :=
  strIncludes
    (lowerStr (if jtruthy (jsGet item "spnDescription")
     then jsToStr ((jsGet item "spnDescription").getD .null) else ""))
    "misfire"
  || (match jsNumber (jsGet item "spnId") with
      | some q => [(1322 : Rat), 1327, 1328].contains q
      | none => false)

def normalizeJ1939FaultItem (item : JVal) (whenIso : String) : Fault :=
  let spnId := jsGet item "spnId"
  let fmiId := jsGet item "fmiId"
  let code := String.intercalate " "
    (List.filterMap id [tmplPart "SPN " spnId, tmplPart "FMI " fmiId])
  let src := jsGet item "sourceAddressName"
  let spnDesc := jsGet item "spnDescription"
  let fmiDesc := jsGet item "fmiDescription"
  let descBits : List String :=
    [ if jtruthy spnDesc then jsToStr (spnDesc.getD .null) else ""
    , if jtruthy fmiDesc then " â€” " ++ jsToStr (fmiDesc.getD .null) else ""
    , if jtruthy src then " (" ++ jsToStr (src.getD .null) ++ ")" else "" ]
  let description := trimStr (String.join descBits)
  let misfire := misfireOf item
  let severity := "info"
  let severity := if jsNumber (jsGet item "milStatus") == some 1 then "warning" else severity
  let severity :=
    if jsNumber (jsGet item "milStatus") == some 1 && misfire then "critical" else severity
  { id := (if code == "" then "UNKNOWN" else code) ++ "@" ++ whenIso
    code := if code == "" then "UNKNOWN" else code
    description := if description == "" then "Diagnostic fault" else description
    severity := severity
    active := true
    time := whenIso
    meta := some
      { spn := jsCoalesce spnId none
        fmi := jsCoalesce fmiId none
        spnDescription := spnDesc
        fmiDescription := fmiDesc
        milStatus := jsGet item "milStatus"
        occurrenceCount := jsGet item "occurrenceCount"
        sourceAddressName := src
        txId := jsGet item "txId" } }

/-- Does a value recurse as a child in `deepFindSpnArray`?  JS skips falsy
children and recurses into arrays and (other) objects; all composite values
are truthy. -/
def isComposite : JVal → Bool
  | .arr _ => true
  | .obj _ => true
  | _ => false

/-- Bounded-depth search for a nested SPN/FMI array.  The JS function takes
`maxDepth` (default 5) and returns `null` when `maxDepth < 0`; here the
fuel is `maxDepth + 1`, so the top-level call uses fuel 6.
At a `null` first array element the JS code would throw on the property
access; modelled as no match. -/
def deepFindSpnArray : Nat → JVal → Option (List JVal)
  | 0, _ => none
  | fuel + 1, root =>
    match root with
    | .arr xs =>
      if (match xs with
          | x :: _ => notNullish (jsGet x "spnId") || notNullish (jsGet x "fmiId")
          | [] => false)
      then some xs
      else xs.findSome? (fun v => if isComposite v then deepFindSpnArray fuel v else none)
    | .obj fs =>
      fs.findSome? (fun kv => if isComposite kv.2 then deepFindSpnArray fuel kv.2 else none)
    | _ => none

/-- List extraction of `normalizeFaultPayload`; the final
`.filter(Boolean)` of the JS code is the identity (normalized items are
always truthy objects) and is not represented. -/
def normalizeFaultPayload (body : JVal) (whenIso : String) : List Fault :=
  let list : List JVal :=
    match body with
    | .arr xs => xs
    | _ =>
      match jsGet body "faults" with
      | some (.arr xs) => xs
      | _ =>
        match jsGet body "items" with
        | some (.arr xs) => xs
        | _ =>
          match jsGet body "j1939" with
          | some (.arr xs) => xs
          | _ =>
            if jtruthy (some body)
               && (notNullish (jsGet body "spnId") || notNullish (jsGet body "fmiId"))
            then [body]
            else (deepFindSpnArray 6 body).getD []
  list.map (fun it => normalizeJ1939FaultItem it whenIso)

/-! ### Upsert / merge (`index.js` 204-251) -/

/-- Sparse-merge upsert into `latestById`.  Returns the merged asset (JS
returns `null` when no id is resolvable) and the updated store.  `now`
models the `NOW()` (`Date.now()`) call. -/
def upsertAssetBase (store : List (JVal × Asset)) (record : LocRecord)
    (topic : String) (now : Nat) : Option Asset × List (JVal × Asset) :=
  let idv := jsOrJ record.id (jsOrJ record.vin record.serial)
  match idv, jtruthy idv with
  | some id, true =>
    let prev := mapGet store id
    let merged : Asset :=
      { id := id
        vin := jsCoalesce record.vin (prev.bind (·.vin))
        serial := jsCoalesce record.serial (prev.bind (·.serial))
        time := jsCoalesce record.time (prev.bind (·.time))
        lat := jsCoalesce record.lat (prev.bind (·.lat))
        lon := jsCoalesce record.lon (prev.bind (·.lon))
        heading := jsCoalesce record.heading (prev.bind (·.heading))
        city := jsCoalesce record.city (prev.bind (·.city))
        state := jsCoalesce record.state (prev.bind (·.state))
        mph := (match record.mph with | some q => some q | none => prev.bind (·.mph))
        -- `prev.faults || { active: [], history: [], counts: {} }`: an
        -- existing asset's faults container is always a truthy object.
        faults := (match prev with
          | some p => p.faults
          | none => { active := [], history := [], counts := none })
        lastTopic := topic
        lastUpdateTs := now
        -- the rebuilt object literal has no `milOn` property
        milOn := none }
    (some merged, mapSet store id merged)
  | _, _ => (none, store)

/-- Dedup-by-code update of the `active` list inside `handleFaultMerge`. -/
def mergeActive (active : List Fault) (f : Fault) : List Fault :=
  let idx := active.findIdx? (fun g => g.code == f.code)
  if f.active then
    match idx with
    | none => active ++ [f]
    | some i => active.set i f
  else
    match idx with
    | none => active
    | some i => active.eraseIdx i

/-- History append with capacity 600 (push, then shift when above 600). -/
def pushHistory (history : List Fault) (f : Fault) : List Fault :=
  let h := history ++ [f]
  if 600 < h.length then h.drop 1 else h

/-- `["critical","warning","info"].includes(s) ? s : "unknown"`. -/
def severityBucket (s : String) : String :=
  if ["critical", "warning", "info"].contains s then s else "unknown"

/-- `counters[s]++`. -/
def bumpCounter (c : Counts) (s : String) : Counts :=
  if s == "critical" then { c with critical := c.critical + 1 }
  else if s == "warning" then { c with warning := c.warning + 1 }
  else if s == "info" then { c with info := c.info + 1 }
  else { c with unknown := c.unknown + 1 }

/-- The counter loop of `handleFaultMerge`. -/
def tallyCounters (active : List Fault) : Counts :=
  active.foldl (fun c f => bumpCounter c (severityBucket f.severity)) ⟨0, 0, 0, 0⟩

/-- `f.meta?.milStatus === 1` (strict equality against the number 1). -/
def milIsOn (f : Fault) : Bool :=
  match f.meta with
  | some m =>
    (match m.milStatus with
     | some (.num q) => q == 1
     | _ => false)
  | none => false

/-- In-place fault merge on an asset (`handleFaultMerge`).  The JS guard
`if (!asset || !faultObj) return` has no counterpart: both arguments are
total values here. -/
def handleFaultMerge (asset : Asset) (faultObj : Fault) : Asset :=
  let history := pushHistory asset.faults.history faultObj
  let active := mergeActive asset.faults.active faultObj
  let counters := tallyCounters active
  { asset with
      faults := { active := active, history := history, counts := some counters }
      milOn := some (active.any milIsOn) }

/-! ### Message handler (`index.js` 391-490) -/

/-- Header lookup `headers[n] || headers[n.toLowerCase()]`, first truthy
value wins across the candidate names. -/
def pickHeader (headers : List (String × String)) : List String → Option String
  | [] => none
  | n :: rest =>
    let v := jsOrS ((headers.find? (fun h => h.1 == n)).map (·.2))
                   ((headers.find? (fun h => h.1 == lowerStr n)).map (·.2))
    if jtruthyS v then v else pickHeader headers rest

/-- Inbound Kafka message as seen by `eachMessage`.  `value` is the result
of `safeJson` on the raw bytes: `none` models an unparseable value (JSON
decode failure), `some v` a successful decode; a missing value decodes to
the empty object. -/
structure KafkaMessage where
  topic : String
  partition : Nat
  key : Option String
  headers : List (String × String)
  value : Option JVal

/-- Tail of the fault pathway of `eachMessage`, after identity resolution:
the drop check (`if (!id || codes.length === 0) return`), the upsert, the
merge loop with its per-fault emissions, the final store write with a
fresh clock stamp, and the `faultcodes`/`update` emissions. -/
def commitFault (st : ServerState) (idv vin serial : Option JVal)
    (codes : List Fault) (topic : String) (now : Nat) : ServerState × List Event :=
  if !(jtruthy idv) || codes.length == 0 then (st, [])
  else
    let record : LocRecord :=
      { id := idv, vin := vin, serial := serial, time := none, lat := none,
        lon := none, heading := none, city := none, state := none, mph := none }
    match upsertAssetBase st.latestById record topic now with
    | (none, _) => (st, [])  -- unreachable: the id is truthy at this point
    | (some base0, store1) =>
      let base := codes.foldl handleFaultMerge base0
      let faultEvents := codes.map (fun f => Event.fault f base.id base.vin base.serial)
      let finalAsset := { base with lastUpdateTs := now }
      let store2 := mapSet store1 base.id finalAsset
      let rawForUi := codes.map (fun f =>
        ({ spnId := f.meta.bind (·.spn)
           fmiId := f.meta.bind (·.fmi)
           spnDescription := f.meta.bind (·.spnDescription)
           fmiDescription := f.meta.bind (·.fmiDescription)
           milStatus := f.meta.bind (·.milStatus)
           occurrenceCount := f.meta.bind (·.occurrenceCount)
           sourceAddressName := f.meta.bind (·.sourceAddressName)
           txId := f.meta.bind (·.txId) } : RawUi))
      ({ latestById := store2, partitionLastId := st.partitionLastId },
       faultEvents ++ [Event.faultcodes base.id base.vin rawForUi, Event.update finalAsset])

/-- Tail of the location pathway of `eachMessage`: the drop check
(`if (!rec.id) return`), the upsert, the final store write with a fresh
clock stamp, the partition-sticky id update and the `update` emission. -/
def commitLocation (st : ServerState) (rcd : LocRecord) (partition : Nat)
    (topic : String) (now : Nat) : ServerState × List Event :=
  if !(jtruthy rcd.id) then (st, [])
  else
    match upsertAssetBase st.latestById rcd topic now with
    | (none, _) => (st, [])  -- unreachable: rcd.id is truthy here
    | (some asset, store1) =>
      let finalAsset := { asset with lastUpdateTs := now }
      let store2 := mapSet store1 asset.id finalAsset
      ({ latestById := store2,
         partitionLastId := plSet st.partitionLastId partition asset.id },
       [Event.update finalAsset])

/-- One pass of the consumer's `eachMessage` handler over the server state.
`ts` is the ISO timestamp string derived from the broker timestamp (the
platform `Date` formatting is abstracted as an input), `now` the
processing-time clock `Date.now()` (the two `NOW()` calls within one pass
are modelled as the same instant).  Returns the new state and the emitted
events; the two pathway tails are factored into `commitFault` and
`commitLocation` above. -/
def eachMessage (st : ServerState) (msg : KafkaMessage) (ts : String) (now : Nat) :
    ServerState × List Event :=
  let keyStr : Option String :=
    match msg.key with
    | some s => if s == "" then none else some s
    | none => none
  let hdrVin := pickHeader msg.headers ["vin", "VIN"]
  let hdrId := pickHeader msg.headers ["id", "vehicleId", "assetId"]
  let obj := msg.value.getD (.obj [])
  if strIncludes (lowerStr msg.topic) "fault" then
    let codes := normalizeFaultPayload obj ts
    let rid := resolveIdentityFromObj obj
    let id1 : Option JVal :=
      if jtruthy rid.id then rid.id
      else jsOrJ (keyStr.map .str) (jsOrJ (hdrId.map .str)
             (jsOrJ (hdrVin.map .str) (jsOrJ (plGet st.partitionLastId msg.partition) none)))
    let vin1 : Option JVal :=
      if jtruthy rid.vin then rid.vin
      else jsOrJ (hdrVin.map .str) (jsOrJ id1 none)
    let idvin :=
      if !(jtruthy id1) then
        if st.latestById.length == 1 then
          match st.latestById.head? with
          | some e =>
            (some e.1, jsOrJ vin1 (jsOrJ ((mapGet st.latestById e.1).bind (·.vin)) (some e.1)))
          | none => (id1, vin1)
        else (id1, vin1)
      else (id1, vin1)
    commitFault st idvin.1 idvin.2 rid.serial codes msg.topic now
  else
    commitLocation st (normalizeLocation obj ts) msg.partition msg.topic now

/-! ### Specification-side predicates -/

/-- Misfire condition as worded by the specification: the parameter
identifier lies in the fixed set 1322/1327/1328, or the parameter
description matches "misfire" case-insensitively. -/
def misfireCondition (item : JVal) : Bool :=
  (match jsNumber (jsGet item "spnId") with
   | some q => [(1322 : Rat), 1327, 1328].contains q
   | none => false)
  || strIncludes
       (lowerStr (if jtruthy (jsGet item "spnDescription")
        then jsToStr ((jsGet item "spnDescription").getD .null) else ""))
       "misfire"

/-- Codes of an active-fault list. -/
def codesOf (l : List Fault) : List String := l.map (·.code)

/-- The entry stored for a given code (the first, and under code
uniqueness the only, active fault with that code). -/
def entryFor (l : List Fault) (c : String) : Option Fault :=
  l.find? (fun g => g.code == c)

/-- The last fault merged for a given code in a merge sequence. -/
def lastMergeFor (fs : List Fault) (c : String) : Option Fault :=
  (fs.filter (fun f => f.code == c)).getLast?

/-! ### Basic lemmas about the JS helpers -/

theorem jsCoalesce_eq_ite (a b : Option JVal) :
    jsCoalesce a b = if notNullish a then a else b := by
  cases a with
  | none => rfl
  | some v => cases v <;> rfl

/-! ### C3: two-stage severity escalation -/

/-- The misfire test of the code agrees with the claim's misfire condition
(same two disjuncts, stated in the claim's order). -/
theorem misfireOf_eq_misfireCondition (item : JVal) :
    misfireOf item = misfireCondition item := by
  unfold misfireOf misfireCondition
  exact Bool.or_comm _ _

/-- Claim C3.  `normalizeJ1939FaultItem` assigns severity `critical` exactly
when the indicator lamp field equals 1 and the fault is a misfire condition
(spnId in {1322, 1327, 1328} or description matching "misfire"
case-insensitively); `warning` exactly when the lamp is 1 and the fault is
not a misfire; `info` exactly when the lamp is not 1 (even for misfires). -/
theorem severity_two_stage_escalation (item : JVal) (whenIso : String) :
    ((normalizeJ1939FaultItem item whenIso).severity = "critical"
      ↔ (jsNumber (jsGet item "milStatus") = some 1 ∧ misfireCondition item = true))
    ∧ ((normalizeJ1939FaultItem item whenIso).severity = "warning"
      ↔ (jsNumber (jsGet item "milStatus") = some 1 ∧ misfireCondition item = false))
    ∧ ((normalizeJ1939FaultItem item whenIso).severity = "info"
      ↔ jsNumber (jsGet item "milStatus") ≠ some 1) := by
  have hm := misfireOf_eq_misfireCondition item
  by_cases hmil : jsNumber (jsGet item "milStatus") = some 1 <;>
    cases hmis : misfireCondition item <;>
      simp [normalizeJ1939FaultItem, hm, hmil, hmis]

/-! ### C7: speed normalization precedence and conversion factor -/

/-- Concrete payload carrying both an already-mph sample (99 mph) and an ECU
speed of 10 m/s. -/
def bothSpeedsObj : JVal :=
  .obj [("ecuSpeedMph", .obj [("value", .num 99)]),
        ("speed", .obj [("ecuSpeedMetersPerSecond", .num 10)])]

/-- Claim C7.  Whenever the meters-per-second ECU speed field is present it
alone determines `mph` (the already-mph field is ignored even when both are
present), via multiplication by the fixed factor 2.2369362920544; in
particular 10 m/s normalizes to exactly 22.369362920544 mph. -/
theorem speed_mps_precedence_and_factor :
    (∀ (obj : JVal) (fallbackIso : String),
      notNullish (jsGet2 obj "speed" "ecuSpeedMetersPerSecond") = true →
      (normalizeLocation obj fallbackIso).mph =
        (jsNumber (jsGet2 obj "speed" "ecuSpeedMetersPerSecond")).map
          (fun q => q * ((22369362920544 : Rat) / 10000000000000)))
    ∧ (normalizeLocation bothSpeedsObj "F").mph =
        some ((22369362920544 : Rat) / 1000000000000) := by
  constructor
  · intro obj fallbackIso h
    simp [normalizeLocation, h]
  · have : ((10 : Rat) * ((22369362920544 : Rat) / 10000000000000)) =
        (22369362920544 : Rat) / 1000000000000 := by norm_num
    simp [normalizeLocation, bothSpeedsObj, jsGet2, jsGet, jsNumber, notNullish, this]

/-- Witness for the hypothesis of the first conjunct of C7, at the concrete
two-speed payload. -/
theorem speed_mps_precedence_witness :
    notNullish (jsGet2 bothSpeedsObj "speed" "ecuSpeedMetersPerSecond") = true
    ∧ (normalizeLocation bothSpeedsObj "F").mph =
        (jsNumber (jsGet2 bothSpeedsObj "speed" "ecuSpeedMetersPerSecond")).map
          (fun q => q * ((22369362920544 : Rat) / 10000000000000)) :=
  ⟨by decide, speed_mps_precedence_and_factor.1 bothSpeedsObj "F" (by decide)⟩

/-! ### C8: decode-failure recovery -/

/-- Claim C8.  A message whose raw value failed JSON decoding (modelled by
`value = none`, which the handler replaces by the empty object) is dropped
on both the fault path (no extracted codes) and the location path (no
resolvable id): the server state is returned unchanged, no events are
emitted, and — the handler being a total function — processing cannot
throw, for any topic, partition, key, headers and timestamps. -/
theorem decode_failure_drops_and_preserves_state
    (st : ServerState) (topic : String) (partition : Nat) (key : Option String)
    (headers : List (String × String)) (ts : String) (now : Nat) :
    eachMessage st { topic := topic, partition := partition, key := key,
                     headers := headers, value := none } ts now = (st, []) := by
  by_cases h : strIncludes (lowerStr topic) "fault" = true
  · simp [eachMessage, h, commitFault, normalizeFaultPayload, jsGet,
      deepFindSpnArray, jtruthy, notNullish]
  · simp [eachMessage, h, commitLocation, normalizeLocation, extractIdentity,
      jsGet2, jsGet, jsCoalesce, jtruthy]

/-! ### C1: active-fault dedup invariant -/

/-- The start-index accumulator of `List.findIdx?` shifts the result. -/
theorem findIdx?_start_succ (p : α → Bool) (l : List α) (i : Nat) :
    List.findIdx? p l (i + 1) = (List.findIdx? p l i).map (· + 1) := by
  induction l generalizing i with
  | nil => rfl
  | cons a t ih =>
    rw [List.findIdx?_cons, List.findIdx?_cons]
    cases hpa : p a
    · simp [hpa, ih (i + 1)]
    · simp [hpa]

theorem findIdx?_nil_acc (p : α → Bool) (i : Nat) :
    List.findIdx? p [] i = none := rfl

theorem codesOf_cons (a : Fault) (t : List Fault) :
    codesOf (a :: t) = a.code :: codesOf t := rfl

theorem mem_codesOf {c : String} {l : List Fault} :
    c ∈ codesOf l ↔ ∃ x ∈ l, x.code = c := List.mem_map

theorem mergeActive_nil_active (f : Fault) (hfa : f.active = true) :
    mergeActive [] f = [f] := by
  unfold mergeActive
  simp [findIdx?_nil_acc, hfa]

theorem mergeActive_nil_inactive (f : Fault) (hfa : f.active = false) :
    mergeActive [] f = [] := by
  unfold mergeActive
  simp [findIdx?_nil_acc, hfa]

theorem mergeActive_cons_of_ne (a f : Fault) (t : List Fault)
    (h : (a.code == f.code) = false) :
    mergeActive (a :: t) f = a :: mergeActive t f := by
  unfold mergeActive
  rw [List.findIdx?_cons]
  rw [show ((0 : Nat) + 1) = 0 + 1 from rfl, findIdx?_start_succ]
  cases hfa : f.active <;>
    cases hidx : List.findIdx? (fun g => g.code == f.code) t <;>
      simp [h, hfa, hidx, List.set_cons_succ]

theorem mergeActive_cons_eq_active (a f : Fault) (t : List Fault)
    (h : (a.code == f.code) = true) (hfa : f.active = true) :
    mergeActive (a :: t) f = f :: t := by
  unfold mergeActive
  rw [List.findIdx?_cons]
  simp [h, hfa, List.set_cons_zero]

theorem mergeActive_cons_eq_inactive (a f : Fault) (t : List Fault)
    (h : (a.code == f.code) = true) (hfa : f.active = false) :
    mergeActive (a :: t) f = t := by
  unfold mergeActive
  rw [List.findIdx?_cons]
  simp [h, hfa]

theorem codesOf_mergeActive_mem (l : List Fault) (f : Fault) (c : String)
    (h : c ∈ codesOf (mergeActive l f)) : c = f.code ∨ c ∈ codesOf l := by
  induction l with
  | nil =>
    cases hfa : f.active
    · rw [mergeActive_nil_inactive f hfa] at h
      simp [codesOf] at h
    · rw [mergeActive_nil_active f hfa] at h
      rw [codesOf_cons] at h
      rcases List.mem_cons.mp h with h | h
      · exact Or.inl h
      · simp [codesOf] at h
  | cons a t ih =>
    cases hb : (a.code == f.code) with
    | true =>
      cases hfa : f.active
      · rw [mergeActive_cons_eq_inactive a f t hb hfa] at h
        right
        rw [codesOf_cons]
        exact List.mem_cons_of_mem _ h
      · rw [mergeActive_cons_eq_active a f t hb hfa] at h
        rw [codesOf_cons] at h
        rcases List.mem_cons.mp h with h | h
        · exact Or.inl h
        · right
          rw [codesOf_cons]
          exact List.mem_cons_of_mem _ h
    | false =>
      rw [mergeActive_cons_of_ne a f t hb] at h
      rw [codesOf_cons] at h
      rcases List.mem_cons.mp h with h | h
      · right
        rw [codesOf_cons, h]
        exact List.mem_cons_self _ _
      · rcases ih h with h' | h'
        · exact Or.inl h'
        · right
          rw [codesOf_cons]
          exact List.mem_cons_of_mem _ h'

theorem codesOf_mergeActive_nodup (l : List Fault) (f : Fault)
    (h : (codesOf l).Nodup) : (codesOf (mergeActive l f)).Nodup := by
  induction l with
  | nil =>
    cases hfa : f.active
    · rw [mergeActive_nil_inactive f hfa]
      exact List.nodup_nil
    · rw [mergeActive_nil_active f hfa]
      simp [codesOf]
  | cons a t ih =>
    rw [codesOf_cons] at h
    obtain ⟨h1, h2⟩ := List.nodup_cons.mp h
    cases hb : (a.code == f.code) with
    | true =>
      have hac : a.code = f.code := eq_of_beq hb
      cases hfa : f.active
      · rw [mergeActive_cons_eq_inactive a f t hb hfa]
        exact h2
      · rw [mergeActive_cons_eq_active a f t hb hfa, codesOf_cons]
        refine List.nodup_cons.mpr ⟨?_, h2⟩
        rw [← hac]
        exact h1
    | false =>
      rw [mergeActive_cons_of_ne a f t hb, codesOf_cons]
      refine List.nodup_cons.mpr ⟨?_, ih h2⟩
      intro hmem
      rcases codesOf_mergeActive_mem t f a.code hmem with h' | h'
      · rw [h'] at hb
        simp at hb
      · exact h1 h'

theorem entryFor_mergeActive (l : List Fault) (f : Fault) (c : String)
    (h : (codesOf l).Nodup) :
    entryFor (mergeActive l f) c =
      if c = f.code then (if f.active then some f else none) else entryFor l c := by
  induction l with
  | nil =>
    cases hfa : f.active
    · rw [mergeActive_nil_inactive f hfa]
      by_cases hc : c = f.code <;> simp [entryFor, List.find?, hc, hfa]
    · rw [mergeActive_nil_active f hfa]
      by_cases hc : c = f.code
      · have hp : ((fun g : Fault => g.code == c) f) = true := by simp [hc]
        simp only [entryFor]
        rw [List.find?_cons_of_pos (p := fun g : Fault => g.code == c) _ hp]
        simp [hc, hfa]
      · have hp : ¬ (((fun g : Fault => g.code == c) f) = true) := by
          simp only [beq_iff_eq]
          intro he
          exact hc he.symm
        simp only [entryFor]
        rw [List.find?_cons_of_neg (p := fun g : Fault => g.code == c) _ hp]
        simp [hc]
  | cons a t ih =>
    rw [codesOf_cons] at h
    obtain ⟨h1, h2⟩ := List.nodup_cons.mp h
    cases hb : (a.code == f.code) with
    | true =>
      have hac : a.code = f.code := eq_of_beq hb
      cases hfa : f.active
      · rw [mergeActive_cons_eq_inactive a f t hb hfa]
        by_cases hc : c = f.code
        · rw [if_pos hc]
          have hnone : (if false = true then some f else (none : Option Fault)) = none := by
            simp
          rw [hnone]
          simp only [entryFor]
          apply List.find?_eq_none.mpr
          intro x hx hpx
          have hxc : x.code = c := eq_of_beq hpx
          apply h1
          rw [hac, ← hc, ← hxc]
          exact mem_codesOf.mpr ⟨x, hx, rfl⟩
        · rw [if_neg hc]
          have hacb : ¬ (((fun g : Fault => g.code == c) a) = true) := by
            simp only [beq_iff_eq]
            intro he
            exact hc (by rw [← he, hac])
          simp only [entryFor]
          rw [List.find?_cons_of_neg (p := fun g : Fault => g.code == c) _ hacb]
      · rw [mergeActive_cons_eq_active a f t hb hfa]
        by_cases hc : c = f.code
        · have hp : ((fun g : Fault => g.code == c) f) = true := by simp [hc]
          simp only [entryFor]
          rw [List.find?_cons_of_pos (p := fun g : Fault => g.code == c) _ hp]
          simp [hc, hfa]
        · have hp : ¬ (((fun g : Fault => g.code == c) f) = true) := by
            simp only [beq_iff_eq]
            intro he
            exact hc he.symm
          have hacb : ¬ (((fun g : Fault => g.code == c) a) = true) := by
            simp only [beq_iff_eq]
            intro he
            exact hc (by rw [← he, hac])
          simp only [entryFor]
          rw [List.find?_cons_of_neg (p := fun g : Fault => g.code == c) _ hp, if_neg hc,
            List.find?_cons_of_neg (p := fun g : Fault => g.code == c) _ hacb]
    | false =>
      rw [mergeActive_cons_of_ne a f t hb]
      cases hacb : (a.code == c) with
      | true =>
        have hacc : a.code = c := eq_of_beq hacb
        have hc : ¬ c = f.code := by
          intro hcc
          rw [hcc] at hacc
          rw [hacc] at hb
          simp at hb
        have hpa : ((fun g : Fault => g.code == c) a) = true := hacb
        simp only [entryFor]
        rw [List.find?_cons_of_pos (p := fun g : Fault => g.code == c) _ hpa, if_neg hc,
          List.find?_cons_of_pos (p := fun g : Fault => g.code == c) _ hpa]
      | false =>
        have hacb' : ¬ (((fun g : Fault => g.code == c) a) = true) := by simp [hacb]
        have ht := ih h2
        simp only [entryFor] at ht
        by_cases hc : c = f.code
        · simp only [entryFor]
          rw [List.find?_cons_of_neg (p := fun g : Fault => g.code == c) _ hacb', if_pos hc]
          have := ht
          rw [if_pos hc] at this
          exact this
        · simp only [entryFor]
          rw [List.find?_cons_of_neg (p := fun g : Fault => g.code == c) _ hacb', if_neg hc,
            List.find?_cons_of_neg (p := fun g : Fault => g.code == c) _ hacb']
          have := ht
          rw [if_neg hc] at this
          exact this

/-- The active list inside `handleFaultMerge` is `mergeActive`. -/
theorem handleFaultMerge_active (a : Asset) (f : Fault) :
    (handleFaultMerge a f).faults.active = mergeActive a.faults.active f := rfl

/-- Claim C1.  Starting from any asset whose active faults have pairwise
distinct codes (as every asset created by `upsertAssetBase` does, with an
empty list), after any sequence of `handleFaultMerge` calls: codes in
`activeFaults` stay pairwise distinct (at most one entry per code), and the
entry stored for a code equals the last fault merged for that code if that
fault had `active = true`, is absent if it had `active = false`, and is the
untouched prior entry if the sequence never merged that code. -/
theorem fault_dedup_invariant (a : Asset) (fs : List Fault)
    (h : (codesOf a.faults.active).Nodup) :
    (codesOf (fs.foldl handleFaultMerge a).faults.active).Nodup
    ∧ ∀ c, entryFor ((fs.foldl handleFaultMerge a).faults.active) c =
        (match lastMergeFor fs c with
         | some f => if f.active then some f else none
         | none => entryFor a.faults.active c) := by
  induction fs using List.reverseRecOn with
  | nil => simpa [lastMergeFor] using h
  | append_singleton fs f ih =>
    rw [List.foldl_append]
    simp only [List.foldl_cons, List.foldl_nil, handleFaultMerge_active]
    refine ⟨codesOf_mergeActive_nodup _ f ih.1, ?_⟩
    intro c
    rw [entryFor_mergeActive _ f c ih.1]
    by_cases hc : c = f.code
    · have hfc : (f.code == c) = true := by simp [beq_iff_eq, hc.symm]
      simp [hc, lastMergeFor, List.filter_append, List.filter, hfc]
    · have hfc : (f.code == c) = false := by
        simp [beq_iff_eq]
        intro hcc
        exact hc hcc.symm
      simpa [hc, lastMergeFor, List.filter_append, List.filter, hfc]
        using ih.2 c

/-- Fresh asset as first created by `upsertAssetBase` (used by witnesses). -/
def asset0 : Asset :=
  { id := .str "A", vin := none, serial := none, time := none, lat := none,
    lon := none, heading := none, city := none, state := none, mph := none,
    faults := { active := [], history := [], counts := none },
    lastTopic := "t", lastUpdateTs := 0, milOn := none }

/-- Simple concrete fault (used by witnesses). -/
def mkFault (c : String) (b : Bool) : Fault :=
  { id := c, code := c, description := "d", severity := "info", active := b,
    time := "T", meta := none }

/-- Demo merge sequence with a repeated code (used by the C1 witness). -/
def demoFaults : List Fault :=
  [mkFault "X" true, mkFault "X" false, mkFault "Y" true]

/-- Witness for C1 at a fresh asset and a sequence that repeats code X. -/
theorem fault_dedup_invariant_witness :
    (codesOf asset0.faults.active).Nodup
    ∧ ((codesOf (demoFaults.foldl handleFaultMerge asset0).faults.active).Nodup
       ∧ ∀ c, entryFor ((demoFaults.foldl handleFaultMerge asset0).faults.active) c =
           (match lastMergeFor demoFaults c with
            | some f => if f.active then some f else none
            | none => entryFor asset0.faults.active c)) :=
  ⟨List.nodup_nil, fault_dedup_invariant asset0 demoFaults List.nodup_nil⟩

/-! ### C2: bounded FIFO fault history -/

theorem handleFaultMerge_history (a : Asset) (f : Fault) :
    (handleFaultMerge a f).faults.history = pushHistory a.faults.history f := rfl

theorem foldl_handleFaultMerge_history (fs : List Fault) (a : Asset) :
    (fs.foldl handleFaultMerge a).faults.history = fs.foldl pushHistory a.faults.history := by
  induction fs generalizing a with
  | nil => rfl
  | cons f rest ih =>
    rw [List.foldl_cons, List.foldl_cons, ih, handleFaultMerge_history]

theorem foldl_pushHistory_eq (fs : List Fault) :
    ∀ start : List Fault, start.length ≤ 600 →
      fs.foldl pushHistory start = (start ++ fs).drop (start.length + fs.length - 600) := by
  induction fs with
  | nil =>
    intro start h
    rw [List.foldl_nil, List.append_nil, List.length_nil, Nat.add_zero,
      Nat.sub_eq_zero_of_le h, List.drop_zero]
  | cons f rest ih =>
    intro start h
    rw [List.foldl_cons]
    by_cases hlt : start.length < 600
    · have hpf : pushHistory start f = start ++ [f] := by
        unfold pushHistory
        rw [if_neg]
        simp only [List.length_append, List.length_cons, List.length_nil]
        omega
      have hle : (start ++ [f]).length ≤ 600 := by
        simp only [List.length_append, List.length_cons, List.length_nil]
        omega
      rw [hpf, ih _ hle]
      have e1 : (start ++ [f]) ++ rest = start ++ f :: rest := by
        rw [List.append_assoc]
        rfl
      have e2 : (start ++ [f]).length + rest.length - 600 =
          start.length + (f :: rest).length - 600 := by
        simp only [List.length_append, List.length_cons, List.length_nil]
        omega
      rw [e1, e2]
    · have h600 : start.length = 600 := by omega
      have hpf : pushHistory start f = (start ++ [f]).drop 1 := by
        unfold pushHistory
        rw [if_pos]
        simp only [List.length_append, List.length_cons, List.length_nil]
        omega
      cases start with
      | nil => simp at h600
      | cons s0 s' =>
        have hs' : s'.length = 599 := by
          simp only [List.length_cons] at h600
          omega
        rw [hpf]
        have hdrop : ((s0 :: s') ++ [f]).drop 1 = s' ++ [f] := rfl
        rw [hdrop]
        have hlen : (s' ++ [f]).length ≤ 600 := by
          simp only [List.length_append, List.length_cons, List.length_nil]
          omega
        rw [ih _ hlen]
        have e1 : (s' ++ [f]) ++ rest = s' ++ f :: rest := by
          rw [List.append_assoc]
          rfl
        have e2 : (s' ++ [f]).length + rest.length - 600 = rest.length := by
          simp only [List.length_append, List.length_cons, List.length_nil]
          omega
        have e3 : (s0 :: s').length + (f :: rest).length - 600 = rest.length + 1 := by
          simp only [List.length_cons]
          omega
        rw [e1, e2, e3]
        show (s' ++ f :: rest).drop rest.length = (s0 :: (s' ++ f :: rest)).drop (rest.length + 1)
        rw [List.drop_succ_cons]

/-- Claim C2.  From any asset whose history holds at most 600 entries (as
every asset the program builds does), merging more than 600 faults leaves
`history` holding exactly the most recent 600 merged faults in arrival
order (oldest evicted first) — and hence exactly 600 entries.  Nothing is
filtered or deduplicated: the suffix keeps every merge, including
`active = false` ones. -/
theorem history_ring_buffer (a : Asset) (fs : List Fault)
    (h1 : a.faults.history.length ≤ 600) (h2 : 600 < fs.length) :
    (fs.foldl handleFaultMerge a).faults.history = fs.drop (fs.length - 600)
    ∧ (fs.foldl handleFaultMerge a).faults.history.length = 600 := by
  have hmain : (fs.foldl handleFaultMerge a).faults.history
      = (a.faults.history ++ fs).drop (a.faults.history.length + fs.length - 600) := by
    rw [foldl_handleFaultMerge_history, foldl_pushHistory_eq fs _ h1]
  constructor
  · rw [hmain, List.drop_append_eq_append_drop]
    have hA : a.faults.history.drop (a.faults.history.length + fs.length - 600) = [] := by
      apply List.drop_eq_nil_of_le
      omega
    rw [hA, List.nil_append]
    have e : a.faults.history.length + fs.length - 600 - a.faults.history.length
        = fs.length - 600 := by omega
    rw [e]
  · rw [hmain, List.length_drop, List.length_append]
    omega

/-- Witness for C2: a fresh asset and 601 merges. -/
theorem history_ring_buffer_witness :
    asset0.faults.history.length ≤ 600
    ∧ 600 < (List.replicate 601 (mkFault "X" true)).length
    ∧ ((List.replicate 601 (mkFault "X" true)).foldl handleFaultMerge asset0).faults.history
        = (List.replicate 601 (mkFault "X" true)).drop
            ((List.replicate 601 (mkFault "X" true)).length - 600)
    ∧ ((List.replicate 601 (mkFault "X" true)).foldl handleFaultMerge asset0).faults.history.length
        = 600 :=
  ⟨by decide,
   by rw [List.length_replicate]; decide,
   (history_ring_buffer asset0 _ (by decide) (by rw [List.length_replicate]; decide)).1,
   (history_ring_buffer asset0 _ (by decide) (by rw [List.length_replicate]; decide)).2⟩

/-! ### C6: severity counters are a pure function of activeFaults -/

theorem tally_foldl_eq (l : List Fault) : ∀ c : Counts,
    l.foldl (fun c f => bumpCounter c (severityBucket f.severity)) c =
      { critical := c.critical + l.countP (fun g => g.severity == "critical")
        warning := c.warning + l.countP (fun g => g.severity == "warning")
        info := c.info + l.countP (fun g => g.severity == "info")
        unknown := c.unknown + l.countP (fun g =>
          !(g.severity == "critical") && !(g.severity == "warning")
            && !(g.severity == "info")) } := by
  induction l with
  | nil =>
    intro c
    cases c
    simp
  | cons a t ih =>
    intro c
    rw [List.foldl_cons, ih]
    by_cases h1 : a.severity = "critical" <;>
      by_cases h2 : a.severity = "warning" <;>
        by_cases h3 : a.severity = "info" <;>
          simp_all [bumpCounter, severityBucket, List.countP_cons, Counts.mk.injEq] <;>
            omega

theorem tallyCounters_eq_countP (l : List Fault) :
    tallyCounters l =
      { critical := l.countP (fun g => g.severity == "critical")
        warning := l.countP (fun g => g.severity == "warning")
        info := l.countP (fun g => g.severity == "info")
        unknown := l.countP (fun g =>
          !(g.severity == "critical") && !(g.severity == "warning")
            && !(g.severity == "info")) } := by
  unfold tallyCounters
  rw [tally_foldl_eq]
  simp

theorem countP_severity_partition (l : List Fault) :
    l.countP (fun g => g.severity == "critical")
      + l.countP (fun g => g.severity == "warning")
      + l.countP (fun g => g.severity == "info")
      + l.countP (fun g =>
          !(g.severity == "critical") && !(g.severity == "warning")
            && !(g.severity == "info")) = l.length := by
  induction l with
  | nil => rfl
  | cons a t ih =>
    by_cases h1 : a.severity = "critical" <;>
      by_cases h2 : a.severity = "warning" <;>
        by_cases h3 : a.severity = "info" <;>
          simp_all [List.countP_cons] <;> omega

/-- Claim C6.  After every fault merge, the stored counters are exactly the
severity tallies of the resulting `activeFaults` list — `critical`,
`warning` and `info` count the entries with those severity strings, every
other severity falls into `unknown` — and the four counters sum to the
length of `activeFaults`. -/
theorem counts_pure_function_of_active (a : Asset) (f : Fault) :
    (handleFaultMerge a f).faults.counts =
      some { critical := (handleFaultMerge a f).faults.active.countP
               (fun g => g.severity == "critical")
             warning := (handleFaultMerge a f).faults.active.countP
               (fun g => g.severity == "warning")
             info := (handleFaultMerge a f).faults.active.countP
               (fun g => g.severity == "info")
             unknown := (handleFaultMerge a f).faults.active.countP
               (fun g => !(g.severity == "critical") && !(g.severity == "warning")
                 && !(g.severity == "info")) }
    ∧ (handleFaultMerge a f).faults.active.countP (fun g => g.severity == "critical")
        + (handleFaultMerge a f).faults.active.countP (fun g => g.severity == "warning")
        + (handleFaultMerge a f).faults.active.countP (fun g => g.severity == "info")
        + (handleFaultMerge a f).faults.active.countP (fun g =>
            !(g.severity == "critical") && !(g.severity == "warning")
              && !(g.severity == "info"))
        = (handleFaultMerge a f).faults.active.length := by
  constructor
  · show some (tallyCounters (mergeActive a.faults.active f)) = _
    rw [tallyCounters_eq_countP]
    rfl
  · exact countP_severity_partition _

/-! ### C4 / C10 / C9: upsert behaviour -/

/-- Master characterization of a successful `upsertAssetBase` call: the
returned asset is keyed by the resolved id, stored via `mapSet`, stamped
with the processing clock, carries the prior faults container unchanged,
merges every location field sparsely, and has no `milOn` property. -/
theorem upsertAssetBase_spec (store : List (JVal × Asset)) (record : LocRecord)
    (topic : String) (now : Nat) (a : Asset) (st' : List (JVal × Asset))
    (h : upsertAssetBase store record topic now = (some a, st')) :
    st' = mapSet store a.id a
    ∧ a.lastUpdateTs = now
    ∧ a.lastTopic = topic
    ∧ a.milOn = none
    ∧ a.faults = (match mapGet store a.id with
        | some p => p.faults
        | none => { active := [], history := [], counts := none })
    ∧ a.vin = (if notNullish record.vin then record.vin else (mapGet store a.id).bind (·.vin))
    ∧ a.serial = (if notNullish record.serial then record.serial else (mapGet store a.id).bind (·.serial))
    ∧ a.time = (if notNullish record.time then record.time else (mapGet store a.id).bind (·.time))
    ∧ a.lat = (if notNullish record.lat then record.lat else (mapGet store a.id).bind (·.lat))
    ∧ a.lon = (if notNullish record.lon then record.lon else (mapGet store a.id).bind (·.lon))
    ∧ a.heading = (if notNullish record.heading then record.heading else (mapGet store a.id).bind (·.heading))
    ∧ a.city = (if notNullish record.city then record.city else (mapGet store a.id).bind (·.city))
    ∧ a.state = (if notNullish record.state then record.state else (mapGet store a.id).bind (·.state))
    ∧ a.mph = (match record.mph with
        | some q => some q
        | none => (mapGet store a.id).bind (·.mph)) := by
  simp only [upsertAssetBase] at h
  cases hidv : jsOrJ record.id (jsOrJ record.vin record.serial) with
  | none =>
    rw [hidv] at h
    simp at h
  | some id =>
    rw [hidv] at h
    cases hjt : jtruthy (some id)
    · rw [hjt] at h
      simp at h
    · rw [hjt] at h
      simp only [Prod.mk.injEq, Option.some.injEq] at h
      obtain ⟨ha, hst⟩ := h
      subst ha
      subst hst
      refine ⟨rfl, rfl, rfl, rfl, rfl, ?_, ?_, ?_, ?_, ?_, ?_, ?_, ?_, rfl⟩ <;>
        simp [jsCoalesce_eq_ite]

/-- Claim C4.  A successful upsert overwrites each stored location field
exactly when the corresponding field of the incoming record is present
(non-nullish); absent fields keep the prior stored value, the prior being
empty (`none`) on first creation.  In particular a record with no fields
set leaves every location field at its prior value. -/
theorem upsert_sparse_merge (store : List (JVal × Asset)) (record : LocRecord)
    (topic : String) (now : Nat) (a : Asset) (st' : List (JVal × Asset))
    (h : upsertAssetBase store record topic now = (some a, st')) :
    a.vin = (if notNullish record.vin then record.vin else (mapGet store a.id).bind (·.vin))
    ∧ a.serial = (if notNullish record.serial then record.serial else (mapGet store a.id).bind (·.serial))
    ∧ a.time = (if notNullish record.time then record.time else (mapGet store a.id).bind (·.time))
    ∧ a.lat = (if notNullish record.lat then record.lat else (mapGet store a.id).bind (·.lat))
    ∧ a.lon = (if notNullish record.lon then record.lon else (mapGet store a.id).bind (·.lon))
    ∧ a.heading = (if notNullish record.heading then record.heading else (mapGet store a.id).bind (·.heading))
    ∧ a.city = (if notNullish record.city then record.city else (mapGet store a.id).bind (·.city))
    ∧ a.state = (if notNullish record.state then record.state else (mapGet store a.id).bind (·.state))
    ∧ a.mph = (match record.mph with
        | some q => some q
        | none => (mapGet store a.id).bind (·.mph)) := by
  have hs := upsertAssetBase_spec store record topic now a st' h
  exact ⟨hs.2.2.2.2.2.1, hs.2.2.2.2.2.2.1, hs.2.2.2.2.2.2.2.1, hs.2.2.2.2.2.2.2.2.1,
    hs.2.2.2.2.2.2.2.2.2.1, hs.2.2.2.2.2.2.2.2.2.2.1, hs.2.2.2.2.2.2.2.2.2.2.2.1,
    hs.2.2.2.2.2.2.2.2.2.2.2.2.1, hs.2.2.2.2.2.2.2.2.2.2.2.2.2⟩

/-- Existing asset used by the C4 / C10 / C9 witnesses; its `milOn` flag is
set, as after a fault merge. -/
def prevAsset : Asset :=
  { id := .str "V1", vin := some (.str "VINOLD"), serial := none,
    time := some (.str "T0"), lat := some (.num 1), lon := some (.num 2),
    heading := none, city := some (.str "C"), state := none, mph := some 5,
    faults := { active := [mkFault "X" true], history := [mkFault "X" true],
                counts := some { critical := 0, warning := 0, info := 1, unknown := 0 } },
    lastTopic := "loc", lastUpdateTs := 1, milOn := some true }

def demoStore : List (JVal × Asset) := [(.str "V1", prevAsset)]

/-- Partial update: only `time` and `lat` present. -/
def demoRecord : LocRecord :=
  { id := some (.str "V1"), vin := none, serial := none, time := some (.str "T1"),
    lat := some (.num 9), lon := none, heading := none, city := none,
    state := none, mph := none }

def w4a : Asset := ((upsertAssetBase demoStore demoRecord "loc" 7).1).getD asset0

def w4s : List (JVal × Asset) := (upsertAssetBase demoStore demoRecord "loc" 7).2

/-- Witness for C4 at a store holding one asset and a partial record. -/
theorem upsert_sparse_merge_witness :
    upsertAssetBase demoStore demoRecord "loc" 7 = (some w4a, w4s)
    ∧ (w4a.vin = (if notNullish demoRecord.vin then demoRecord.vin else (mapGet demoStore w4a.id).bind (·.vin))
       ∧ w4a.serial = (if notNullish demoRecord.serial then demoRecord.serial else (mapGet demoStore w4a.id).bind (·.serial))
       ∧ w4a.time = (if notNullish demoRecord.time then demoRecord.time else (mapGet demoStore w4a.id).bind (·.time))
       ∧ w4a.lat = (if notNullish demoRecord.lat then demoRecord.lat else (mapGet demoStore w4a.id).bind (·.lat))
       ∧ w4a.lon = (if notNullish demoRecord.lon then demoRecord.lon else (mapGet demoStore w4a.id).bind (·.lon))
       ∧ w4a.heading = (if notNullish demoRecord.heading then demoRecord.heading else (mapGet demoStore w4a.id).bind (·.heading))
       ∧ w4a.city = (if notNullish demoRecord.city then demoRecord.city else (mapGet demoStore w4a.id).bind (·.city))
       ∧ w4a.state = (if notNullish demoRecord.state then demoRecord.state else (mapGet demoStore w4a.id).bind (·.state))
       ∧ w4a.mph = (match demoRecord.mph with
           | some q => some q
           | none => (mapGet demoStore w4a.id).bind (·.mph))) :=
  ⟨rfl, upsert_sparse_merge demoStore demoRecord "loc" 7 w4a w4s rfl⟩

/-! ### C10: upsert and the fault container -/

/-- Counterexample to C10 as stated: the claim allows only identity,
location fields, `lastTopic` and `lastUpdateTs` to change across an upsert,
but the rebuilt snapshot also drops the `milOn` flag — here the stored
asset had `milOn` set and the upserted result does not. -/
theorem upsert_changes_milOn_counterexample :
    (mapGet demoStore (.str "V1")).map (·.milOn) = some (some true)
    ∧ ((upsertAssetBase demoStore demoRecord "loc" 7).1).map (·.milOn) = some none :=
  ⟨rfl, rfl⟩

/-- Amended C10.  A successful upsert carries the prior faults container
over unchanged (the initial empty container on first creation), and beyond
identity, location fields, `lastTopic` and `lastUpdateTs` it also resets
`milOn` to absent (the rebuilt object literal has no such property). -/
theorem upsert_preserves_faults (store : List (JVal × Asset)) (record : LocRecord)
    (topic : String) (now : Nat) (a : Asset) (st' : List (JVal × Asset))
    (h : upsertAssetBase store record topic now = (some a, st')) :
    a.faults = (match mapGet store a.id with
      | some p => p.faults
      | none => { active := [], history := [], counts := none })
    ∧ a.milOn = none := by
  have hs := upsertAssetBase_spec store record topic now a st' h
  exact ⟨hs.2.2.2.2.1, hs.2.2.2.1⟩

/-- Witness for the amended C10 on the demo store. -/
theorem upsert_preserves_faults_witness :
    upsertAssetBase demoStore demoRecord "loc" 7 = (some w4a, w4s)
    ∧ (w4a.faults = (match mapGet demoStore w4a.id with
        | some p => p.faults
        | none => { active := [], history := [], counts := none })
       ∧ w4a.milOn = none) :=
  ⟨rfl, upsert_preserves_faults demoStore demoRecord "loc" 7 w4a w4s rfl⟩

/-! ### C9: which operations refresh the staleness clock -/

theorem mapGet_cons (e : JVal × Asset) (m : List (JVal × Asset)) (id : JVal) :
    mapGet (e :: m) id = if (e.1 == id) = true then some e.2 else mapGet m id := by
  by_cases hk : (e.1 == id) = true
  · rw [if_pos hk]
    simp only [mapGet]
    rw [List.find?_cons_of_pos (p := fun x : JVal × Asset => x.1 == id) _ hk]
    rfl
  · rw [if_neg hk]
    simp only [mapGet]
    rw [List.find?_cons_of_neg (p := fun x : JVal × Asset => x.1 == id) _ hk]

/-- Every binding readable from `mapSet m k v` is either readable from `m`
or is the written value `v`. -/
theorem mapGet_mapSet_cases (m : List (JVal × Asset)) (k : JVal) (v : Asset)
    (id : JVal) (e : Asset) (h : mapGet (mapSet m k v) id = some e) :
    mapGet m id = some e ∨ e = v := by
  induction m with
  | nil =>
    simp only [mapSet] at h
    rw [mapGet_cons] at h
    by_cases hid : (k == id) = true
    · rw [if_pos hid] at h
      right
      cases h
      rfl
    · rw [if_neg hid] at h
      simp [mapGet, List.find?] at h
  | cons hd tl ih =>
    simp only [mapSet] at h
    by_cases hk : (hd.1 == k) = true
    · rw [if_pos hk] at h
      rw [mapGet_cons] at h
      by_cases hid : (hd.1 == id) = true
      · rw [if_pos hid] at h
        right
        cases h
        rfl
      · rw [if_neg hid] at h
        left
        rw [mapGet_cons, if_neg hid]
        exact h
    · rw [if_neg hk] at h
      rw [mapGet_cons] at h
      by_cases hid : (hd.1 == id) = true
      · rw [if_pos hid] at h
        left
        rw [mapGet_cons, if_pos hid]
        exact h
      · rw [if_neg hid] at h
        rcases ih h with h1 | h1
        · left
          rw [mapGet_cons, if_neg hid]
          exact h1
        · exact Or.inr h1

theorem foldl_handleFaultMerge_lastUpdateTs (fs : List Fault) (a : Asset) :
    (fs.foldl handleFaultMerge a).lastUpdateTs = a.lastUpdateTs := by
  induction fs generalizing a with
  | nil => rfl
  | cons f rest ih =>
    rw [List.foldl_cons, ih]
    rfl

theorem commitFault_store_ts (st : ServerState) (idv vin serial : Option JVal)
    (codes : List Fault) (topic : String) (now : Nat) (id : JVal) (entry : Asset)
    (h : mapGet (commitFault st idv vin serial codes topic now).1.latestById id = some entry) :
    mapGet st.latestById id = some entry ∨ entry.lastUpdateTs = now := by
  simp only [commitFault] at h
  split at h
  · exact Or.inl h
  · split at h
    · exact Or.inl h
    · rename_i base0 store1 heq
      have hspec := upsertAssetBase_spec _ _ _ _ _ _ heq
      rcases mapGet_mapSet_cases _ _ _ _ _ h with h1 | h1
      · rw [hspec.1] at h1
        rcases mapGet_mapSet_cases _ _ _ _ _ h1 with h2 | h2
        · exact Or.inl h2
        · right
          rw [h2]
          exact hspec.2.1
      · right
        rw [h1]

theorem commitLocation_store_ts (st : ServerState) (rcd : LocRecord)
    (partition : Nat) (topic : String) (now : Nat) (id : JVal) (entry : Asset)
    (h : mapGet (commitLocation st rcd partition topic now).1.latestById id = some entry) :
    mapGet st.latestById id = some entry ∨ entry.lastUpdateTs = now := by
  simp only [commitLocation] at h
  split at h
  · exact Or.inl h
  · split at h
    · exact Or.inl h
    · rename_i asset store1 heq
      have hspec := upsertAssetBase_spec _ _ _ _ _ _ heq
      rcases mapGet_mapSet_cases _ _ _ _ _ h with h1 | h1
      · rw [hspec.1] at h1
        rcases mapGet_mapSet_cases _ _ _ _ _ h1 with h2 | h2
        · exact Or.inl h2
        · right
          rw [h2]
          exact hspec.2.1
      · right
        rw [h1]

/-- Counterexample to C9 as stated: `handleFaultMerge` takes no clock and
leaves `lastUpdateTs` exactly as it was (here 3), so the merge operation
itself does not set the timestamp to the processing-time clock. -/
theorem mergeFault_timestamp_counterexample :
    (handleFaultMerge { asset0 with lastUpdateTs := 3 } (mkFault "X" true)).lastUpdateTs = 3
    ∧ ({ asset0 with lastUpdateTs := 3 } : Asset).lastUpdateTs = 3 :=
  ⟨rfl, rfl⟩

/-- Amended C9.  `upsertAssetBase` stamps `lastUpdateTs` with the processing
clock; `handleFaultMerge` itself leaves the field untouched; and at the
message-handler level every store entry that an `eachMessage` pass adds or
replaces carries `lastUpdateTs = now`, because both pathways rewrite the
merged asset with a fresh clock stamp after merging. -/
theorem staleness_clock_refresh :
    (∀ (store : List (JVal × Asset)) (record : LocRecord) (topic : String)
       (now : Nat) (a : Asset) (st' : List (JVal × Asset)),
        upsertAssetBase store record topic now = (some a, st') →
        a.lastUpdateTs = now)
    ∧ (∀ (a : Asset) (f : Fault),
        (handleFaultMerge a f).lastUpdateTs = a.lastUpdateTs)
    ∧ (∀ (st : ServerState) (msg : KafkaMessage) (ts : String) (now : Nat)
         (id : JVal) (entry : Asset),
        mapGet (eachMessage st msg ts now).1.latestById id = some entry →
        mapGet st.latestById id = some entry ∨ entry.lastUpdateTs = now) := by
  refine ⟨?_, ?_, ?_⟩
  · intro store record topic now a st' h
    exact (upsertAssetBase_spec store record topic now a st' h).2.1
  · intro a f
    rfl
  · intro st msg ts now id entry h
    simp only [eachMessage] at h
    by_cases htop : strIncludes (lowerStr msg.topic) "fault" = true
    · rw [if_pos htop] at h
      exact commitFault_store_ts _ _ _ _ _ _ _ _ _ h
    · rw [if_neg htop] at h
      exact commitLocation_store_ts _ _ _ _ _ _ _ h

/-! ### C5: identity fallback scenario -/

/-- Fault payload with one SPN/FMI item and no identity fields. -/
def c5payload : JVal :=
  .obj [("items", .arr [.obj [("spnId", .num 100), ("fmiId", .num 1)]])]

/-- Fault-topic message with transport key "abc123", no headers, and the
identity-free payload. -/
def c5msg : KafkaMessage :=
  { topic := "vehicle-faults", partition := 0, key := some "abc123",
    headers := [], value := some c5payload }

/-- The same message with no transport key. -/
def c5msgNoKey : KafkaMessage :=
  { topic := "vehicle-faults", partition := 0, key := none,
    headers := [], value := some c5payload }

/-- Empty server state. -/
def st0 : ServerState := { latestById := [], partitionLastId := [] }

/-- Store holding exactly one asset, with id "abc123". -/
def soloAsset : Asset := { asset0 with id := .str "abc123" }

def soloState : ServerState :=
  { latestById := [(.str "abc123", soloAsset)], partitionLastId := [] }

/-- Witness for the amended C9: a concrete upsert is stamped with the clock,
and a concrete fault-message pass stores an entry stamped with the clock. -/
def c9entry : Asset :=
  (mapGet (eachMessage st0 c5msg "T0" 42).1.latestById (.str "abc123")).getD asset0

theorem staleness_clock_refresh_witness :
    upsertAssetBase demoStore demoRecord "loc" 7 = (some w4a, w4s)
    ∧ w4a.lastUpdateTs = 7
    ∧ mapGet (eachMessage st0 c5msg "T0" 42).1.latestById (.str "abc123") = some c9entry
    ∧ (mapGet st0.latestById (.str "abc123") = some c9entry ∨ c9entry.lastUpdateTs = 42) :=
  ⟨rfl, staleness_clock_refresh.1 demoStore demoRecord "loc" 7 w4a w4s rfl, rfl,
   staleness_clock_refresh.2.2 st0 c5msg "T0" 42 (.str "abc123") c9entry rfl⟩

/-- Counterexample to C5 as stated: the claim requires this keyed,
identity-free fault message to be dropped when the store holds zero assets;
instead the transport key resolves the id (precedence tier c) and the pass
creates the asset "abc123" in the empty store. -/
theorem identity_fallback_counterexample :
    (eachMessage st0 c5msg "T0" 42).1.latestById.map (fun e => e.1) = [.str "abc123"] := rfl

/-- Amended C5.  With no resolvable envelope identity, no key, no headers
and no partition last-seen id, a fault message is dropped whenever the
store does not hold exactly one asset; against a store holding exactly one
asset with id "abc123" it attaches to that asset (singleton fallback); and
when a transport key is present, the key alone resolves the id — even
against an empty store — per the precedence chain (envelope id, flat ids,
key, header, partition-sticky id, singleton). -/
theorem identity_fallback_amended :
    (∀ (st : ServerState) (ts : String) (now : Nat),
        plGet st.partitionLastId 0 = none →
        ¬ st.latestById.length = 1 →
        eachMessage st c5msgNoKey ts now = (st, []))
    ∧ ((eachMessage soloState c5msgNoKey "T0" 42).1.latestById.map (fun e => e.1)
         = [.str "abc123"]
       ∧ (mapGet (eachMessage soloState c5msgNoKey "T0" 42).1.latestById
            (.str "abc123")).map (fun e => codesOf e.faults.active)
         = some ["SPN 100 FMI 1"])
    ∧ (eachMessage st0 c5msg "T0" 42).1.latestById.map (fun e => e.1) = [.str "abc123"] := by
  refine ⟨?_, ⟨rfl, rfl⟩, rfl⟩
  intro st ts now hpl hlen
  have htop : strIncludes (lowerStr "vehicle-faults") "fault" = true := by decide
  have hrid : resolveIdentityFromObj c5payload =
      { id := none, vin := none, serial := none } := rfl
  simp [eachMessage, c5msgNoKey, commitFault, jsOrJ, jtruthy, htop, hpl, hlen,
    hrid, pickHeader, jtruthyS, jsOrS]

/-- Witness for the amended C5, discharging its hypotheses on the empty
state (zero assets, no partition cache). -/
theorem identity_fallback_amended_witness :
    plGet st0.partitionLastId 0 = none
    ∧ ¬ st0.latestById.length = 1
    ∧ eachMessage st0 c5msgNoKey "T0" 42 = (st0, []) :=
  ⟨rfl, by decide, identity_fallback_amended.1 st0 "T0" 42 rfl (by decide)⟩

end Fleet
